import Mathlib

/-!
Shallow embedding of the AIdamShefter-v2 data layer
(`datalayer/sleeper_data`): matchup→game derivation, roster-player role
resolution, the guarded SQL tool, roster/name resolution, draft-pick
seeding and trade application, record-string decoding, the standings
phase of the load orchestrator, and the effective-week computation.
Python floats are modelled as rationals, SQL tables as lists of rows,
and Python `None` as `Option`.
-/

namespace SleeperData

/-- One normalized matchup row (`schema.models.MatchupRow`); the two
JSON blob columns are omitted because no modelled operation reads them. -/
structure MatchupRow where
  league_id : String
  season : String
  week : Int
  matchup_id : Int
  roster_id : Int
  points : Rat
deriving DecidableEq, Repr

/-- One derived game row (`schema.models.Game`). -/
structure Game where
  league_id : String
  season : String
  week : Int
  matchup_id : Int
  roster_id_a : Int
  roster_id_b : Int
  points_a : Rat
  points_b : Rat
  winner_roster_id : Option Int
  is_playoffs : Bool
deriving DecidableEq, Repr

/-- Append `row` to the group keyed `key`, creating the group at the end
when absent: one step of `grouped[(row.week, row.matchup_id)].append(row)`
on the insertion-ordered `defaultdict(list)` of `derive_games`. -/
def groupInsert (grouped : List ((Int × Int) × List MatchupRow))
    (key : Int × Int) (row : MatchupRow) :
    List ((Int × Int) × List MatchupRow) :=
  match grouped with
  | [] => [(key, [row])]
  | (k, rs) :: rest =>
      if k = key then (k, rs ++ [row]) :: rest
      else (k, rs) :: groupInsert rest key row

/-- The insertion-ordered grouping of matchup rows by `(week, matchup_id)`
built by the first loop of `derive_games` (normalize/matchups.py). -/
def groupRows (rows : List MatchupRow) :
    List ((Int × Int) × List MatchupRow) :=
  rows.foldl (fun grouped row => groupInsert grouped (row.week, row.matchup_id) row) []

/-- The game built from the first two rows of a group: body of the second
loop of `derive_games`, with its winner comparison. -/
def mkGameOf (matchup_id : Int) (row_a row_b : MatchupRow)
    (is_playoffs : Bool) : Game :=
  { league_id := row_a.league_id
    season := row_a.season
    week := row_a.week
    matchup_id := matchup_id
    roster_id_a := row_a.roster_id
    roster_id_b := row_b.roster_id
    points_a := row_a.points
    points_b := row_b.points
    winner_roster_id :=
      if row_b.points < row_a.points then some row_a.roster_id
      else if row_a.points < row_b.points then some row_b.roster_id
      else none
    is_playoffs := is_playoffs }

/-- One iteration of the second loop of `derive_games`: groups with fewer
than two rows are skipped (`if len(rows) < 2: continue`), otherwise the
game is built from `rows[0]` and `rows[1]`. -/
def mkGame? (matchup_id : Int) (rows : List MatchupRow)
    (is_playoffs : Bool) : Option Game :=
  match rows with
  | row_a :: row_b :: _ => some (mkGameOf matchup_id row_a row_b is_playoffs)
  | _ => none

/-- Embedding of `derive_games` (normalize/matchups.py): group matchup rows by
`(week, matchup_id)`, skip groups with fewer than two rows, and pair the
first two rows of every remaining group into a `Game`. -/
def derive_games (matchup_rows : List MatchupRow) (is_playoffs : Bool) :
    List Game :=
  (groupRows matchup_rows).filterMap
    (fun entry => mkGame? entry.1.2 entry.2 is_playoffs)

/-- The list stored under `key` in a grouping, `[]` when absent. -/
def findGroup (grouped : List ((Int × Int) × List MatchupRow))
    (key : Int × Int) : List MatchupRow :=
  match grouped.find? (fun entry => decide (entry.1 = key)) with
  | some entry => entry.2
  | none => []

/-- Three matchup rows sharing `(week, matchup_id) = (1, 1)`: a malformed
group larger than a pairing. -/
def tripleRows : List MatchupRow :=
  [⟨"L1", "2024", 1, 1, 1, 0⟩, ⟨"L1", "2024", 1, 1, 2, 0⟩, ⟨"L1", "2024", 1, 1, 3, 0⟩]

/-- A well-formed week-1 pairing: roster 1 scores 100, roster 2 scores 90. -/
def pairRows : List MatchupRow :=
  [⟨"L1", "2024", 1, 1, 1, 100⟩, ⟨"L1", "2024", 1, 1, 2, 90⟩]

/-- Python `str.strip()` on a character list: whitespace dropped from
both ends. -/
def pyStrip (cs : List Char) : List Char :=
  ((cs.dropWhile Char.isWhitespace).reverse.dropWhile Char.isWhitespace).reverse

/-- The cleaned record string of `_record_string_to_weeks`
(sleeper_league_data.py): strip, uppercase, and keep only non-whitespace
characters (`"".join(ch for ch in record_string.strip().upper() if ch.strip())`). -/
def trimmedRecord (record_string : String) : List Char :=
  ((pyStrip record_string.data).map Char.toUpper).filter (fun ch => !ch.isWhitespace)

/-- The inner `for outcome in slice_value` loop of
`_record_string_to_weeks`: bump the running win/loss/tie counters for
each outcome character, ignoring anything that is not `W`/`L`/`T`. -/
def tallySlice (slice_value : List Char) (wins losses ties : Nat) :
    Nat × Nat × Nat :=
  match slice_value with
  | [] => (wins, losses, ties)
  | outcome :: rest =>
      if outcome = 'W' then tallySlice rest (wins + 1) losses ties
      else if outcome = 'L' then tallySlice rest wins (losses + 1) ties
      else if outcome = 'T' then tallySlice rest wins losses (ties + 1)
      else tallySlice rest wins losses ties

/-- The `for week in range(1, week_count + 1)` loop of
`_record_string_to_weeks`, with the number of weeks still to emit as
fuel; each week reads the slice `trimmed[end_idx - chars_per_week : end_idx]`
with `end_idx = week * chars_per_week`. -/
def decodeWeeks (trimmed : List Char) (chars_per_week : Nat) :
    Nat → Nat → Nat → Nat → Nat → List (Nat × Nat × Nat × Nat)
  | 0, _, _, _, _ => []
  | remaining + 1, week, wins, losses, ties =>
      let slice_value := (trimmed.drop ((week - 1) * chars_per_week)).take chars_per_week
      let tallied := tallySlice slice_value wins losses ties
      (week, tallied.1, tallied.2.1, tallied.2.2) ::
        decodeWeeks trimmed chars_per_week remaining (week + 1)
          tallied.1 tallied.2.1 tallied.2.2

/-- Embedding of `_record_string_to_weeks` (sleeper_league_data.py): decode a legacy
record string into cumulative `(week, wins, losses, ties)` tuples,
`chars_per_week` characters at a time; a falsy or fully-whitespace input
decodes to nothing. -/
def record_string_to_weeks (chars_per_week : Nat)
    (record_string : Option String) : List (Nat × Nat × Nat × Nat) :=
  match record_string with
  | none => []
  | some s =>
      if s = "" then []
      else
        let trimmed := trimmedRecord s
        if trimmed = [] then []
        else
          let week_count := trimmed.length / chars_per_week
          decodeWeeks trimmed chars_per_week week_count 1 0 0 0

/-- Cumulative counts of one decoded week dominate those of an earlier
week: the componentwise order on `(week, wins, losses, ties)` ignoring
the week number. -/
def cumulMono (x y : Nat × Nat × Nat × Nat) : Prop :=
  x.2.1 ≤ y.2.1 ∧ x.2.2.1 ≤ y.2.2.1 ∧ x.2.2.2 ≤ y.2.2.2

/-- The effective-week computation of `SleeperLeagueData.load`:
`int(self.week_override or computed_week or 0)`, with Python truthiness
(`None` and `0` are falsy, so a zero override falls through to the
computed week). -/
def effective_week_of (week_override : Option Int) (computed_week : Int) : Int :=
  match week_override with
  | some v => if v ≠ 0 then v else if computed_week ≠ 0 then computed_week else 0
  | none => if computed_week ≠ 0 then computed_week else 0

/-- Spec reading of the effective week: "the override when one is set,
otherwise the computed week, otherwise 0" — set means present,
regardless of its value. -/
def spec_effective_week (week_override : Option Int) (computed_week : Int) : Int :=
  match week_override with
  | some v => v
  | none => if computed_week ≠ 0 then computed_week else 0

/-- Word characters for the regex `\b` boundary (`\w`, ASCII). -/
def isWordChar (c : Char) : Bool := c.isAlphanum || c == '_'

/-- Match the lowercase keyword `kw` case-insensitively at the head of
`cs`, returning the remaining characters on success. -/
def ciMatchHead : List Char → List Char → Option (List Char)
  | [], cs => some cs
  | _ :: _, [] => none
  | k :: ks, c :: cs => if c.toLower = k then ciMatchHead ks cs else none

/-- Whole-word occurrence of `kw` at the head of `cs`: the character
before `cs` (tracked by `prev`) is not a word character, `kw` matches
case-insensitively, and the following character (if any) is not a word
character. -/
def wordAtHead (kw : List Char) (prev : Bool) (cs : List Char) : Bool :=
  !prev &&
    match ciMatchHead kw cs with
    | some [] => true
    | some (c :: _) => !isWordChar c
    | none => false

/-- Scan of `re.search(r"\b<kw>\b", text, re.IGNORECASE)` for an
alphabetic keyword `kw` (given lowercase): whole-word, case-insensitive
occurrence anywhere in the text. -/
def containsWordCI (kw : List Char) : Bool → List Char → Bool
  | _, [] => false
  | prev, c :: cs => wordAtHead kw prev (c :: cs) || containsWordCI kw (isWordChar c) cs

/-- Keyword set `_DISALLOWED` (queries/sql_tool.py): keywords rejected anywhere in a
guarded query. -/
def _DISALLOWED : List (List Char) :=
  ["pragma".data, "attach".data, "detach".data, "insert".data, "update".data,
    "delete".data, "drop".data, "alter".data, "create".data, "replace".data]

/-- Embedding of `_ensure_select_only` (queries/sql_tool.py): strip the query, drop
leading `(` characters, then require a case-insensitive `select` head
and no whole-word disallowed keyword; the `ValueError`s raised there
become `Except.error`. -/
def _ensure_select_only (query : String) : Except String Unit :=
  let trimmed := (pyStrip query.data).dropWhile (fun c => c == '(')
  if (ciMatchHead "select".data trimmed).isNone then
    Except.error "Only SELECT queries are allowed."
  else if _DISALLOWED.any (fun kw => containsWordCI kw false trimmed) then
    Except.error "Disallowed SQL keyword detected."
  else Except.ok ()

/-- Python `str.rstrip(";")`: trailing semicolons dropped. -/
def rstripSemis (cs : List Char) : List Char :=
  (cs.reverse.dropWhile (fun c => c == ';')).reverse

/-- Embedding of `_ensure_limit` (queries/sql_tool.py): a query already containing a
whole-word case-insensitive `limit` passes through unchanged, otherwise
` LIMIT <cap>;` is appended after dropping trailing semicolons. -/
def _ensure_limit (query : String) (limit : Nat) : String :=
  if containsWordCI "limit".data false query.data then query
  else String.mk (rstripSemis query.data) ++ " LIMIT " ++ toString limit ++ ";"

/-- The validation-then-rewrite pipeline of `run_sql`
(queries/sql_tool.py): `_ensure_select_only` runs before anything
executes, so a rejected query yields its validation error and an
accepted one yields the SQL text that reaches the store. -/
def run_sql_guard (query : String) (limit : Nat) : Except String String :=
  match _ensure_select_only query with
  | Except.error e => Except.error e
  | Except.ok _ => Except.ok (_ensure_limit query limit)

/-- Spec reading of the guard's acceptance condition: the trimmed text,
lowercased, starts with `select`, and contains no whole-word occurrence
of a disallowed keyword. -/
def spec_sql_accepts (query : String) : Bool :=
  let t := pyStrip query.data
  "select".data.isPrefixOf (t.map Char.toLower) &&
    !(_DISALLOWED.any (fun kw => containsWordCI kw false t))

/-- Amended acceptance condition: as `spec_sql_accepts`, but leading `(`
characters are dropped after trimming, matching the code's
`query.strip().lstrip("(")`. -/
def spec_sql_accepts_amended (query : String) : Bool :=
  let t := (pyStrip query.data).dropWhile (fun c => c == '(')
  "select".data.isPrefixOf (t.map Char.toLower) &&
    !(_DISALLOWED.any (fun kw => containsWordCI kw false t))

/-- Code-point lexicographic strict order on character lists: the order
Python's `sorted` and SQLite's default collation use on the strings in
play. -/
def charListLt : List Char → List Char → Bool
  | [], [] => false
  | [], _ :: _ => true
  | _ :: _, [] => false
  | a :: as, b :: bs => if a < b then true else if b < a then false else charListLt as bs

/-- Strict string order by code points. -/
def strLt (a b : String) : Bool := charListLt a.data b.data

/-- Insertion step of the ascending sort. -/
def insertSorted (x : String) : List String → List String
  | [] => [x]
  | y :: ys => if strLt y x then y :: insertSorted x ys else x :: y :: ys

/-- Ascending sort by code points: Python's `sorted` on strings. -/
def sortStrings : List String → List String
  | [] => []
  | x :: xs => insertSorted x (sortStrings xs)

/-- The `[str(pid) for pid in (raw_roster.get(...) or []) if pid]` and
`{str(pid) for pid in ... if pid}` cleanups of `normalize_roster_players`
(normalize/rosters.py): falsy ids dropped. -/
def filterIds (values : List String) : List String :=
  values.filter (fun pid => decide (pid ≠ ""))

/-- One raw roster payload as read by `normalize_roster_players`: the
player list and the four status lists, all already stringified; an
absent or null JSON field is the empty list. -/
structure RawRoster where
  roster_id : Int
  players : List String
  starters : List String
  taxi : List String
  reserve : List String
  ir : List String
deriving DecidableEq, Repr

/-- One roster-player row (constructed in normalize/rosters.py; columns
per the `roster_players` table spec). -/
structure RosterPlayer where
  league_id : String
  roster_id : Int
  player_id : String
  role : String
deriving DecidableEq, Repr

/-- The `_resolve_role` closure of `normalize_roster_players`: first
match in the `role_priority` order starters→taxi→reserve→ir, else
bench. -/
def _resolve_role (starters taxi reserve ir : List String)
    (player_id : String) : String :=
  if player_id ∈ starters then "starter"
  else if player_id ∈ taxi then "taxi"
  else if player_id ∈ reserve then "reserve"
  else if player_id ∈ ir then "ir"
  else "bench"

/-- The body of the `for raw_roster in raw_rosters` loop of
`normalize_roster_players`: rows for the roster's player list in order,
then rows for status-list players missing from it (`extra_players`,
deduplicated and sorted), every row's role resolved by priority. -/
def _roster_player_rows (league_id : String) (raw : RawRoster) :
    List RosterPlayer :=
  let roster_players := filterIds raw.players
  let starters := filterIds raw.starters
  let taxi := filterIds raw.taxi
  let reserve := filterIds raw.reserve
  let ir := filterIds raw.ir
  let seen := roster_players
  let extra_players :=
    sortStrings (((starters ++ taxi ++ reserve ++ ir).filter
      (fun pid => decide (pid ∉ seen))).dedup)
  roster_players.map (fun pid =>
      { league_id := league_id, roster_id := raw.roster_id, player_id := pid,
        role := _resolve_role starters taxi reserve ir pid }) ++
    extra_players.map (fun pid =>
      { league_id := league_id, roster_id := raw.roster_id, player_id := pid,
        role := _resolve_role starters taxi reserve ir pid })

/-- Embedding of `normalize_roster_players` (normalize/rosters.py). -/
def normalize_roster_players (raw_rosters : List RawRoster)
    (league_id : String) : List RosterPlayer :=
  raw_rosters.flatMap (_roster_player_rows league_id)

/-- A roster whose ir list names a player (`"9"`) missing from the
player list, and whose starter `"1"` also sits on the taxi list. -/
def sampleRoster : RawRoster :=
  { roster_id := 7, players := ["1", "2", "3"], starters := ["1"],
    taxi := ["1", "2"], reserve := [], ir := ["9"] }

/-- One roster row (`schema.models.Roster`). -/
structure Roster where
  league_id : String
  roster_id : Int
  owner_user_id : Option String
  settings_json : Option String
  metadata_json : Option String
deriving DecidableEq, Repr

/-- One team-profile row (`schema.models.TeamProfile`). -/
structure TeamProfile where
  league_id : String
  roster_id : Int
  team_name : Option String
  manager_name : Option String
  avatar_url : Option String
deriving DecidableEq, Repr

/-- The two tables `resolve_roster_id` (queries/_resolvers.py) reads. -/
structure ResolverDB where
  rosters : List Roster
  team_profiles : List TeamProfile
deriving DecidableEq, Repr

/-- Embedding of `normalize_lookup_key` (queries/_helpers.py): `None`
becomes `""`, anything else is stringified and stripped. -/
def normalize_lookup_key (value : Option String) : String :=
  match value with
  | none => ""
  | some s => String.mk (pyStrip s.data)

/-- Python `str.isdigit()` (ASCII digits): non-empty and all digits. -/
def pyIsDigit (s : String) : Bool := !s.data.isEmpty && s.data.all Char.isDigit

/-- Decimal value of an all-digit character list (Python `int` on a
digit string). -/
def digitsToNat (cs : List Char) : Nat :=
  cs.foldl (fun acc c => acc * 10 + (c.toNat - '0'.toNat)) 0

/-- SQLite `lower()`: ASCII-only lowercasing, which is exactly what
`Char.toLower` does. -/
def sqlLower (s : String) : String := String.mk (s.data.map Char.toLower)

/-- The result shape of `resolve_roster_id`: `found=True` with the
roster, `found=False` bare, or `found=False` with the candidate
`matches` list of `(roster_id, team_name)` rows. -/
inductive ResolveResult where
  | found (roster_id : Int) (team_name : Option String)
  | notFound
  | ambiguous (matchRows : List (Int × Option String))
deriving DecidableEq, Repr

/-- The `fetch_one` over `rosters` in the numeric branch of
`resolve_roster_id`: first row matching `(league_id, roster_id)`. -/
def roster_by_id (db : ResolverDB) (league_id : String) (roster_id : Int) :
    Option Roster :=
  db.rosters.find? (fun r => decide (r.league_id = league_id ∧ r.roster_id = roster_id))

/-- The `fetch_one` over `team_profiles` in the numeric branch of
`resolve_roster_id`. -/
def profile_by_id (db : ResolverDB) (league_id : String) (roster_id : Int) :
    Option TeamProfile :=
  db.team_profiles.find?
    (fun p => decide (p.league_id = league_id ∧ p.roster_id = roster_id))

/-- The `WHERE` clause of the name query of `resolve_roster_id`:
case-insensitive (SQLite `lower()`) match of `key` against a non-null
team name or manager name. -/
def nameMatches (key : String) (p : TeamProfile) : Bool :=
  (match p.team_name with
    | some tn => decide (sqlLower tn = sqlLower key)
    | none => false) ||
  (match p.manager_name with
    | some mn => decide (sqlLower mn = sqlLower key)
    | none => false)

/-- The name query's row set (its `WHERE` applied to `team_profiles`). -/
def roster_name_matches (db : ResolverDB) (league_id key : String) :
    List TeamProfile :=
  db.team_profiles.filter (fun p => decide (p.league_id = league_id) && nameMatches key p)

/-- SQLite `ASC` on a nullable text column: `NULL` sorts first, strings
by bytes (code points here). -/
def optStrLt (a b : Option String) : Bool :=
  match a, b with
  | none, none => false
  | none, some _ => true
  | some _, none => false
  | some x, some y => strLt x y

/-- Strict version of the query's `ORDER BY team_name ASC, manager_name
ASC`. -/
def profileKeyLt (a b : TeamProfile) : Bool :=
  optStrLt a.team_name b.team_name ||
    (decide (a.team_name = b.team_name) && optStrLt a.manager_name b.manager_name)

/-- Insertion step of the `ORDER BY` sort. -/
def insertMatch (x : TeamProfile) : List TeamProfile → List TeamProfile
  | [] => [x]
  | y :: ys => if profileKeyLt y x then y :: insertMatch x ys else x :: y :: ys

/-- The `ORDER BY team_name ASC, manager_name ASC` of the name query. -/
def sortMatches : List TeamProfile → List TeamProfile
  | [] => []
  | x :: xs => insertMatch x (sortMatches xs)

/-- Embedding of `resolve_roster_id` (queries/_resolvers.py): numeric
keys look the roster up directly; names match case-insensitively against
team or manager name with a unique match returning `found`, none
returning `notFound`, and several returning `ambiguous` with the
candidates. -/
def resolve_roster_id (db : ResolverDB) (league_id : String)
    (roster_key : Option String) : ResolveResult :=
  let key := normalize_lookup_key roster_key
  if key = "" then ResolveResult.notFound
  else if pyIsDigit key then
    let roster_id : Int := (digitsToNat key.data : Int)
    match roster_by_id db league_id roster_id with
    | none => ResolveResult.notFound
    | some _ =>
        ResolveResult.found roster_id
          (match profile_by_id db league_id roster_id with
            | some p => p.team_name
            | none => none)
  else
    let matchRows := sortMatches (roster_name_matches db league_id key)
    match matchRows with
    | [] => ResolveResult.notFound
    | [m] => ResolveResult.found m.roster_id m.team_name
    | _ => ResolveResult.ambiguous (matchRows.map (fun m => (m.roster_id, m.team_name)))

/-- Two rosters whose team names differ only by case, the disambiguation
fixture of the claim. -/
def alphaDB : ResolverDB :=
  { rosters := [⟨"L1", 1, none, none, none⟩, ⟨"L1", 2, none, none, none⟩],
    team_profiles := [⟨"L1", 1, some "Alpha", none, none⟩,
      ⟨"L1", 2, some "alpha", none, none⟩] }

/-- One draft-pick row (constructed in normalize/picks.py; columns per
the `draft_picks` table spec). -/
structure DraftPick where
  league_id : String
  season : String
  round : Int
  original_roster_id : Int
  current_roster_id : Int
  pick_id : Option String
  source : String
deriving DecidableEq, Repr

/-- Python `int(...)` on a season string: optional sign, then digits;
anything else raises and is modelled as `none`. -/
def parseIntStr? (s : String) : Option Int :=
  match pyStrip s.data with
  | [] => none
  | '-' :: rest =>
      if !rest.isEmpty && rest.all Char.isDigit then some (-(digitsToNat rest : Int))
      else none
  | '+' :: rest =>
      if !rest.isEmpty && rest.all Char.isDigit then some ((digitsToNat rest : Int))
      else none
  | cs => if cs.all Char.isDigit then some ((digitsToNat cs : Int)) else none

/-- Embedding of `seed_draft_picks` (normalize/picks.py): one pick per
round per roster for each of the next 3 seasons, original and current
owner identical; empty when the season fails to parse, rounds are
non-positive, or there are no rosters. -/
def seed_draft_picks (rosters : List Roster) (league_id : String)
    (base_season : String) (draft_rounds : Int) : List DraftPick :=
  match parseIntStr? base_season with
  | none => []
  | some base_year =>
      if draft_rounds ≤ 0 ∨ rosters = [] then []
      else
        (List.range' 1 3).flatMap (fun season_offset =>
          rosters.flatMap (fun roster =>
            (List.range' 1 draft_rounds.toNat).map (fun (round_value : Nat) =>
              { league_id := league_id
                season := toString (base_year + (season_offset : Int))
                round := (round_value : Int)
                original_roster_id := roster.roster_id
                current_roster_id := roster.roster_id
                pick_id := none
                source := "seed" })))

/-- One raw traded-pick record as read by `apply_traded_picks`
(normalize/picks.py): every field may be missing. -/
structure RawTradedPick where
  season : Option String
  round : Option Int
  roster_id : Option Int
  owner_id : Option Int
deriving DecidableEq, Repr

/-- One iteration of the `for pick in raw_traded_picks` loop of
`apply_traded_picks`: records missing season, round, original roster or
owner are skipped; otherwise the SQL `UPDATE` sets `current_roster_id`
on every row matching `(league_id, season, round, original_roster_id)`. -/
def apply_one_traded_pick (picks : List DraftPick) (league_id : String)
    (pick : RawTradedPick) : List DraftPick :=
  match pick.season, pick.round, pick.roster_id with
  | some season_value, some round_value, some original_roster_id =>
      match pick.owner_id with
      | none => picks
      | some owner_id =>
          picks.map (fun p =>
            if p.league_id = league_id ∧ p.season = season_value ∧
                p.round = round_value ∧ p.original_roster_id = original_roster_id then
              { p with current_roster_id := owner_id }
            else p)
  | _, _, _ => picks

/-- Embedding of `apply_traded_picks` (normalize/picks.py) on the
`draft_picks` table contents; a falsy (missing or empty) payload leaves
the table untouched. -/
def apply_traded_picks (picks : List DraftPick)
    (raw_traded_picks : Option (List RawTradedPick)) (league_id : String) :
    List DraftPick :=
  match raw_traded_picks with
  | none => picks
  | some raws =>
      raws.foldl (fun acc pick => apply_one_traded_pick acc league_id pick) picks

/-- Identity columns of a draft pick (everything except
`current_roster_id`) agree. -/
def pickIdentityEq (p q : DraftPick) : Prop :=
  p.league_id = q.league_id ∧ p.season = q.season ∧ p.round = q.round ∧
    p.original_roster_id = q.original_roster_id ∧ p.pick_id = q.pick_id ∧
    p.source = q.source

/-- A single-roster league used to instantiate the draft-pick claims. -/
def oneRosterList : List Roster := [⟨"L1", 1, none, none, none⟩]

/-- A traded-pick record moving the 2025 round-1 pick of roster 1 to
roster 9. -/
def sampleTrade : RawTradedPick :=
  { season := some "2025", round := some 1, roster_id := some 1, owner_id := some 9 }

/-- One standings row (`schema.models.StandingsWeek`). -/
structure StandingsWeek where
  league_id : String
  season : String
  week : Int
  roster_id : Int
  wins : Int
  losses : Int
  ties : Int
  points_for : Rat
  points_against : Rat
  rank : Option Int
  streak_type : Option String
  streak_len : Option Int
deriving DecidableEq, Repr

/-- The `metadata.record` value of a raw roster: absent (or any
non-string, non-list JSON value, which the code also skips), a string,
or a list that is joined into a string. -/
inductive RecordVal where
  | null
  | str (s : String)
  | list (items : List String)
deriving DecidableEq, Repr

/-- The raw roster `settings` fields read by `normalize_standings`
(normalize/standings.py). -/
structure RawSettings where
  wins : Option Int
  losses : Option Int
  ties : Option Int
  fpts : Option Rat
  fpts_decimal : Option Rat
  fpts_against : Option Rat
  fpts_against_decimal : Option Rat
  rank : Option Int
  streak_type : Option String
  streak_length : Option Int
deriving DecidableEq, Repr

/-- The parts of one raw roster payload the standings phase of
`SleeperLeagueData.load` reads. -/
structure RawRosterInfo where
  roster_id : Int
  record : RecordVal
  settings : RawSettings
deriving DecidableEq, Repr

/-- The record-string preprocessing of `load`: a list value is joined
(`"".join(str(item) for item in record_string if item)`), a string kept,
anything else skipped. -/
def _record_value_to_string : RecordVal → Option String
  | RecordVal.null => none
  | RecordVal.str s => some s
  | RecordVal.list items =>
      some (String.join (items.filter (fun item => decide (item ≠ ""))))

/-- Embedding of `_points_from_settings` (normalize/standings.py):
`float(whole) + float(decimal) / 100.0` with missing values as zero. -/
def _points_from_settings (whole dec : Option Rat) : Rat :=
  whole.getD 0 + (dec.getD 0) / 100

/-- Embedding of `normalize_standings` (normalize/standings.py): one
live-snapshot standings row per raw roster at the given week. -/
def normalize_standings (raw_rosters : List RawRosterInfo)
    (league_id season : String) (week : Int) : List StandingsWeek :=
  raw_rosters.map (fun rr =>
    { league_id := league_id
      season := season
      week := week
      roster_id := rr.roster_id
      wins := rr.settings.wins.getD 0
      losses := rr.settings.losses.getD 0
      ties := rr.settings.ties.getD 0
      points_for := _points_from_settings rr.settings.fpts rr.settings.fpts_decimal
      points_against :=
        _points_from_settings rr.settings.fpts_against rr.settings.fpts_against_decimal
      rank := rr.settings.rank
      streak_type := rr.settings.streak_type
      streak_len := rr.settings.streak_length })

/-- The decoded-record rows of one roster in `load`: each decoded week
becomes a `StandingsWeek` with zero point totals, playoff weeks
(`week >= playoff_week_start`) skipped. -/
def _roster_record_rows (league_id season : String) (chars_per_week : Nat)
    (playoff_week_start : Option Int) (rr : RawRosterInfo) : List StandingsWeek :=
  match _record_value_to_string rr.record with
  | none => []
  | some record_string =>
      (record_string_to_weeks chars_per_week (some record_string)).filterMap (fun e =>
        let row : StandingsWeek :=
          { league_id := league_id
            season := season
            week := (e.1 : Int)
            roster_id := rr.roster_id
            wins := (e.2.1 : Int)
            losses := (e.2.2.1 : Int)
            ties := (e.2.2.2 : Int)
            points_for := 0
            points_against := 0
            rank := none
            streak_type := none
            streak_len := none }
        match playoff_week_start with
        | some p => if (e.1 : Int) ≥ p then none else some row
        | none => some row)

/-- All decoded-record standings rows of a load, roster by roster
(`record_standings` in `SleeperLeagueData.load`). -/
def record_standings_of (league_id season : String) (chars_per_week : Nat)
    (playoff_week_start : Option Int) (raw_rosters : List RawRosterInfo) :
    List StandingsWeek :=
  raw_rosters.flatMap
    (_roster_record_rows league_id season chars_per_week playoff_week_start)

/-- Python `max` over the collected weeks (meaningful only when
non-empty, as in the source where it runs under `record_weeks` being
truthy). -/
def _max_int : List Int → Int
  | [] => 0
  | x :: xs => xs.foldl max x

/-- The live-snapshot decision of `SleeperLeagueData.load`: insert when
no decoded weeks exist, or when `effective_week` exceeds the last
decoded week and `playoff_week_start` is unset or still ahead. -/
def should_insert_current (record_weeks : List Int) (effective_week : Int)
    (playoff_week_start : Option Int) : Bool :=
  if record_weeks = [] then true
  else if effective_week > _max_int record_weeks then
    match playoff_week_start with
    | none => true
    | some p => decide (effective_week < p)
  else false

/-- The standings phase of `SleeperLeagueData.load` (steps 8–9): the
decoded-record rows are inserted first, then the live snapshot for
`effective_week` exactly when `should_insert_current` holds; the result
is the full contents of the `standings` table. -/
def standings_phase (league_id season : String) (chars_per_week : Nat)
    (playoff_week_start : Option Int) (effective_week : Int)
    (raw_rosters : List RawRosterInfo) : List StandingsWeek :=
  let record_standings :=
    record_standings_of league_id season chars_per_week playoff_week_start raw_rosters
  let record_weeks := record_standings.map (fun row => row.week)
  if should_insert_current record_weeks effective_week playoff_week_start then
    record_standings ++ normalize_standings raw_rosters league_id season effective_week
  else record_standings

/-- All-absent raw settings. -/
def emptySettings : RawSettings :=
  ⟨none, none, none, none, none, none, none, none, none, none⟩

/-- A roster with no record string: only a live snapshot can produce
standings rows for it. -/
def cexRosterInfo : RawRosterInfo :=
  { roster_id := 1, record := RecordVal.null, settings := emptySettings }

/-- A roster whose record string `"WWL"` decodes to weeks 1–3. -/
def sampleStandingsRoster : RawRosterInfo :=
  { roster_id := 1, record := RecordVal.str "WWL", settings := emptySettings }

/-! ### Theorems -/

theorem findGroup_nil (key : Int × Int) : findGroup [] key = [] := rfl

theorem findGroup_cons (k : Int × Int) (rs : List MatchupRow)
    (rest : List ((Int × Int) × List MatchupRow)) (key : Int × Int) :
    findGroup ((k, rs) :: rest) key =
      if k = key then rs else findGroup rest key := by
  by_cases h : k = key <;> simp [findGroup, List.find?, h]

theorem findGroup_groupInsert (grouped : List ((Int × Int) × List MatchupRow))
    (k0 key : Int × Int) (row : MatchupRow) :
    findGroup (groupInsert grouped k0 row) key =
      if key = k0 then findGroup grouped key ++ [row]
      else findGroup grouped key := by
  induction grouped with
  | nil =>
      by_cases h : key = k0
      · simp [groupInsert, findGroup_cons, findGroup_nil, h]
      · simp [groupInsert, findGroup_cons, findGroup_nil, h, Ne.symm h]
  | cons e rest ih =>
      obtain ⟨k, rs⟩ := e
      by_cases hk : k = k0
      · subst hk
        by_cases hkey : key = k
        · subst hkey
          simp [groupInsert, findGroup_cons]
        · simp [groupInsert, findGroup_cons, hkey, Ne.symm hkey]
      · by_cases hkey : key = k
        · subst hkey
          simp [groupInsert, findGroup_cons, hk, Ne.symm hk]
        · simp [groupInsert, findGroup_cons, hk, Ne.symm hkey, ih]

theorem findGroup_foldl (rows : List MatchupRow)
    (acc : List ((Int × Int) × List MatchupRow)) (key : Int × Int) :
    findGroup
        (rows.foldl (fun grouped row => groupInsert grouped (row.week, row.matchup_id) row) acc)
        key =
      findGroup acc key ++
        rows.filter (fun r => decide ((r.week, r.matchup_id) = key)) := by
  induction rows generalizing acc with
  | nil => simp [findGroup]
  | cons r rs ih =>
      simp only [List.foldl_cons, ih, findGroup_groupInsert, List.filter_cons]
      by_cases h : (r.week, r.matchup_id) = key
      · simp [h]
      · simp [h, Ne.symm h]

/-- The group stored for `key` by `derive_games` is exactly the sublist of
input rows whose `(week, matchup_id)` equals `key`, in input order. -/
theorem findGroup_groupRows (rows : List MatchupRow) (key : Int × Int) :
    findGroup (groupRows rows) key =
      rows.filter (fun r => decide ((r.week, r.matchup_id) = key)) := by
  simpa [groupRows, findGroup] using findGroup_foldl rows [] key

theorem keys_groupInsert (grouped : List ((Int × Int) × List MatchupRow))
    (k0 : Int × Int) (row : MatchupRow) :
    (groupInsert grouped k0 row).map Prod.fst =
      if k0 ∈ grouped.map Prod.fst then grouped.map Prod.fst
      else grouped.map Prod.fst ++ [k0] := by
  induction grouped with
  | nil => simp [groupInsert]
  | cons e rest ih =>
      obtain ⟨k, rs⟩ := e
      by_cases hk : k = k0
      · subst hk
        simp [groupInsert]
      · simp [groupInsert, hk, Ne.symm hk, ih]
        by_cases hmem : k0 ∈ rest.map Prod.fst <;> simp [hmem, Ne.symm hk]

theorem nodup_keys_groupInsert (grouped : List ((Int × Int) × List MatchupRow))
    (k0 : Int × Int) (row : MatchupRow)
    (h : (grouped.map Prod.fst).Nodup) :
    ((groupInsert grouped k0 row).map Prod.fst).Nodup := by
  rw [keys_groupInsert]
  by_cases hmem : k0 ∈ grouped.map Prod.fst
  · simpa [hmem] using h
  · simp [hmem, List.nodup_append, h]

theorem nodup_keys_foldl (rows : List MatchupRow)
    (acc : List ((Int × Int) × List MatchupRow))
    (h : (acc.map Prod.fst).Nodup) :
    (((rows.foldl (fun grouped row => groupInsert grouped (row.week, row.matchup_id) row) acc)).map
        Prod.fst).Nodup := by
  induction rows generalizing acc with
  | nil => simpa using h
  | cons r rs ih =>
      simp only [List.foldl_cons]
      exact ih _ (nodup_keys_groupInsert _ _ _ h)

theorem nodup_keys_groupRows (rows : List MatchupRow) :
    ((groupRows rows).map Prod.fst).Nodup :=
  nodup_keys_foldl rows [] (by simp)

theorem find?_of_mem_of_nodup_keys
    (grouped : List ((Int × Int) × List MatchupRow)) (k : Int × Int)
    (rs : List MatchupRow) (hmem : (k, rs) ∈ grouped)
    (hnd : (grouped.map Prod.fst).Nodup) :
    grouped.find? (fun entry => decide (entry.1 = k)) = some (k, rs) := by
  induction grouped with
  | nil => simp at hmem
  | cons e rest ih =>
      obtain ⟨k1, rs1⟩ := e
      simp only [List.map_cons, List.nodup_cons] at hnd
      rcases List.mem_cons.mp hmem with heq | htail
      · obtain ⟨hk, hrs⟩ := Prod.mk.injEq .. ▸ heq.symm
        subst hk
        simp [List.find?, heq.symm]
      · by_cases hk1 : k1 = k
        · exfalso
          apply hnd.1
          subst hk1
          exact List.mem_map.mpr ⟨(k1, rs), htail, rfl⟩
        · simp only [List.find?, decide_eq_false hk1]
          exact ih htail hnd.2

/-- A group present in `groupRows rows` holds exactly the input rows whose
key matches its own. -/
theorem mem_groupRows_eq_filter (rows : List MatchupRow) (k : Int × Int)
    (rs : List MatchupRow) (h : (k, rs) ∈ groupRows rows) :
    rs = rows.filter (fun r => decide ((r.week, r.matchup_id) = k)) := by
  have hfind := find?_of_mem_of_nodup_keys (groupRows rows) k rs h (nodup_keys_groupRows rows)
  have : findGroup (groupRows rows) k = rs := by
    simp [findGroup, hfind]
  rw [← this, findGroup_groupRows]

theorem mem_derive_games (rows : List MatchupRow) (pf : Bool) (g : Game) :
    g ∈ derive_games rows pf ↔
      ∃ entry ∈ groupRows rows, mkGame? entry.1.2 entry.2 pf = some g := by
  simp [derive_games, List.mem_filterMap]

theorem mkGame?_eq_some (mid : Int) (rs : List MatchupRow) (pf : Bool) (g : Game) :
    mkGame? mid rs pf = some g ↔
      ∃ a b rest, rs = a :: b :: rest ∧ g = mkGameOf mid a b pf := by
  cases rs with
  | nil => simp [mkGame?]
  | cons a tail =>
      cases tail with
      | nil => simp [mkGame?]
      | cons b rest =>
          simp only [mkGame?, Option.some.injEq]
          constructor
          · intro h
            exact ⟨a, b, rest, rfl, h.symm⟩
          · rintro ⟨a', b', rest', heq, hg⟩
            simp only [List.cons.injEq] at heq
            obtain ⟨ha, hb, _⟩ := heq
            subst ha
            subst hb
            exact hg.symm

theorem key_filter_eq (rows : List MatchupRow) (w m : Int) :
    rows.filter (fun r => decide ((r.week, r.matchup_id) = (w, m))) =
      rows.filter (fun r => decide (r.week = w ∧ r.matchup_id = m)) := by
  apply List.filter_congr
  intro r _
  simp [Prod.ext_iff]

theorem derive_games_of_filter_cons (rows : List MatchupRow) (pf : Bool) (w m : Int)
    (a b : MatchupRow) (rest : List MatchupRow)
    (h : rows.filter (fun r => decide ((r.week, r.matchup_id) = (w, m))) = a :: b :: rest) :
    mkGameOf m a b pf ∈ derive_games rows pf := by
  have hFG : findGroup (groupRows rows) (w, m) = a :: b :: rest := by
    rw [findGroup_groupRows, h]
  rcases hfind : (groupRows rows).find? (fun entry => decide (entry.1 = (w, m))) with _ | e
  · have hempty : findGroup (groupRows rows) (w, m) = [] := by
      simp [findGroup, hfind]
    rw [hempty] at hFG
    exact absurd hFG (by simp)
  · have he_mem : e ∈ groupRows rows := List.mem_of_find?_eq_some hfind
    have he_key : e.1 = (w, m) := by simpa using List.find?_some hfind
    have he_val : e.2 = a :: b :: rest := by
      have hval : findGroup (groupRows rows) (w, m) = e.2 := by
        simp [findGroup, hfind]
      rw [hval] at hFG
      exact hFG
    apply (mem_derive_games rows pf _).mpr
    refine ⟨e, he_mem, ?_⟩
    rw [he_val, he_key]
    simp [mkGame?]

theorem week_of_mem_key_filter (rows : List MatchupRow) (w m : Int) (r : MatchupRow)
    (h : r ∈ rows.filter (fun r => decide ((r.week, r.matchup_id) = (w, m)))) :
    r.week = w ∧ r.matchup_id = m := by
  have := (List.mem_filter.mp h).2
  simp [Prod.ext_iff] at this
  exact this

/-- C1 (amended): a `(week, matchup_id)` group yields a `Game` iff it has
at least two rows; groups of fewer than two rows are dropped — never
turned into a bye or self-match — while groups of more than two rows
still yield one `Game` built from their first two rows. -/
theorem derive_games_group_iff (rows : List MatchupRow) (pf : Bool) (w m : Int) :
    (∃ g ∈ derive_games rows pf, g.week = w ∧ g.matchup_id = m) ↔
      2 ≤ (rows.filter (fun r => decide (r.week = w ∧ r.matchup_id = m))).length := by
  rw [← key_filter_eq]
  constructor
  · rintro ⟨g, hg, hw, hm⟩
    obtain ⟨entry, hentry, hmk⟩ := (mem_derive_games rows pf g).mp hg
    obtain ⟨k, rs⟩ := entry
    obtain ⟨a, b, rest, hrs0, hgdef0⟩ := (mkGame?_eq_some _ _ _ _).mp hmk
    have hrs : rs = a :: b :: rest := hrs0
    have hgdef : g = mkGameOf k.2 a b pf := hgdef0
    have hfilter := mem_groupRows_eq_filter rows k rs hentry
    have ha : a ∈ rs := by rw [hrs]; simp
    have hak : (a.week, a.matchup_id) = k := by
      have hmem := (List.mem_filter.mp (hfilter ▸ ha)).2
      simpa using hmem
    have hgw : g.week = a.week := by rw [hgdef]; rfl
    have hgm : g.matchup_id = k.2 := by rw [hgdef]; rfl
    have hk1 : a.week = k.1 := congrArg Prod.fst hak
    have hk : k = (w, m) := by
      rw [Prod.ext_iff]
      exact ⟨by rw [← hk1, ← hgw, hw], by rw [← hgm, hm]⟩
    subst hk
    rw [← hfilter, hrs]
    simp only [List.length_cons]
    omega
  · intro hlen
    rcases hshape : rows.filter (fun r => decide ((r.week, r.matchup_id) = (w, m))) with
      _ | ⟨a, tail⟩
    · rw [hshape] at hlen
      simp at hlen
    · rcases htail : tail with _ | ⟨b, rest⟩
      · rw [hshape, htail] at hlen
        simp at hlen
      · rw [htail] at hshape
        refine ⟨mkGameOf m a b pf, derive_games_of_filter_cons rows pf w m a b rest hshape, ?_, rfl⟩
        have ha : a ∈ rows.filter (fun r => decide ((r.week, r.matchup_id) = (w, m))) := by
          rw [hshape]; simp
        exact (week_of_mem_key_filter rows w m a ha).1

/-- C1 counterexample: three rows share `(week, matchup_id) = (1, 1)` —
a group of size three, not two — yet `derive_games` still produces one
`Game` for it, contradicting "a Game is produced iff the group contains
exactly two rows". -/
theorem derive_games_triple_group_counterexample :
    (tripleRows.filter (fun r => decide (r.week = 1 ∧ r.matchup_id = 1))).length = 3 ∧
      (derive_games tripleRows false).length = 1 := by
  constructor
  · rfl
  · rfl

/-- C1 witness: with at least two rows sharing a key, a game for that key
exists (instantiated on the two-row pairing `pairRows`). -/
theorem derive_games_group_iff_witness :
    ∃ g ∈ derive_games pairRows false, g.week = 1 ∧ g.matchup_id = 1 :=
  (derive_games_group_iff pairRows false 1 1).mpr (by decide)

/-- C6: for a `(week, matchup_id)` group of exactly two rows, the derived
game's `winner_roster_id` is the roster with strictly higher points, and
is `none` exactly when the two point totals are equal. -/
theorem derive_games_winner_of_pair (rows : List MatchupRow) (pf : Bool)
    (w m : Int) (a b : MatchupRow)
    (h : rows.filter (fun r => decide (r.week = w ∧ r.matchup_id = m)) = [a, b]) :
    ∃ g ∈ derive_games rows pf,
      g.week = w ∧ g.matchup_id = m ∧
      g.roster_id_a = a.roster_id ∧ g.roster_id_b = b.roster_id ∧
      (b.points < a.points → g.winner_roster_id = some a.roster_id) ∧
      (a.points < b.points → g.winner_roster_id = some b.roster_id) ∧
      (g.winner_roster_id = none ↔ a.points = b.points) := by
  have h' : rows.filter (fun r => decide ((r.week, r.matchup_id) = (w, m))) = [a, b] := by
    rw [key_filter_eq]; exact h
  refine ⟨mkGameOf m a b pf, derive_games_of_filter_cons rows pf w m a b [] h', ?_, rfl, rfl, rfl, ?_, ?_, ?_⟩
  · have ha : a ∈ rows.filter (fun r => decide ((r.week, r.matchup_id) = (w, m))) := by
      rw [h']; simp
    exact (week_of_mem_key_filter rows w m a ha).1
  · intro hba
    show (if b.points < a.points then some a.roster_id
      else if a.points < b.points then some b.roster_id else none) = some a.roster_id
    rw [if_pos hba]
  · intro hab
    show (if b.points < a.points then some a.roster_id
      else if a.points < b.points then some b.roster_id else none) = some b.roster_id
    rw [if_neg (not_lt_of_gt hab), if_pos hab]
  · show (if b.points < a.points then some a.roster_id
      else if a.points < b.points then some b.roster_id else none) = none ↔ a.points = b.points
    constructor
    · intro hnone
      by_cases hba : b.points < a.points
      · rw [if_pos hba] at hnone
        exact absurd hnone (by simp)
      · by_cases hab : a.points < b.points
        · rw [if_neg hba, if_pos hab] at hnone
          exact absurd hnone (by simp)
        · exact le_antisymm (not_lt.mp hba) (not_lt.mp hab)
    · intro heq
      rw [heq]
      simp

/-- C6 witness: in `pairRows` roster 1 has 100 points against roster 2's
90, so the derived game's winner is roster 1 and is not a tie. -/
theorem derive_games_winner_of_pair_witness :
    ∃ g ∈ derive_games pairRows false,
      g.week = 1 ∧ g.matchup_id = 1 ∧
      g.roster_id_a = 1 ∧ g.roster_id_b = 2 ∧
      ((90 : Rat) < 100 → g.winner_roster_id = some 1) ∧
      ((100 : Rat) < 90 → g.winner_roster_id = some 2) ∧
      (g.winner_roster_id = none ↔ (100 : Rat) = 90) :=
  derive_games_winner_of_pair pairRows false 1 1
    ⟨"L1", "2024", 1, 1, 1, 100⟩ ⟨"L1", "2024", 1, 1, 2, 90⟩ (by decide)

theorem tallySlice_ge (slice_value : List Char) (wins losses ties : Nat) :
    wins ≤ (tallySlice slice_value wins losses ties).1 ∧
      losses ≤ (tallySlice slice_value wins losses ties).2.1 ∧
      ties ≤ (tallySlice slice_value wins losses ties).2.2 := by
  induction slice_value generalizing wins losses ties with
  | nil => simp [tallySlice]
  | cons outcome rest ih =>
      by_cases hW : outcome = 'W'
      · have := ih (wins + 1) losses ties
        simp only [tallySlice, if_pos hW]
        omega
      · by_cases hL : outcome = 'L'
        · have := ih wins (losses + 1) ties
          simp only [tallySlice, if_neg hW, if_pos hL]
          omega
        · by_cases hT : outcome = 'T'
          · have := ih wins losses (ties + 1)
            simp only [tallySlice, if_neg hW, if_neg hL, if_pos hT]
            omega
          · have := ih wins losses ties
            simp only [tallySlice, if_neg hW, if_neg hL, if_neg hT]
            omega

theorem decodeWeeks_length (trimmed : List Char) (cpw remaining week wins losses ties : Nat) :
    (decodeWeeks trimmed cpw remaining week wins losses ties).length = remaining := by
  induction remaining generalizing week wins losses ties with
  | zero => rfl
  | succ r ih => simp [decodeWeeks, ih]

theorem decodeWeeks_weeks (trimmed : List Char) (cpw remaining week wins losses ties : Nat) :
    (decodeWeeks trimmed cpw remaining week wins losses ties).map Prod.fst =
      List.range' week remaining := by
  induction remaining generalizing week wins losses ties with
  | zero => rfl
  | succ r ih => simp [decodeWeeks, ih, List.range'_succ]

theorem decodeWeeks_head_ge (trimmed : List Char) (cpw remaining week wins losses ties : Nat) :
    ∀ x ∈ (decodeWeeks trimmed cpw remaining week wins losses ties).head?,
      wins ≤ x.2.1 ∧ losses ≤ x.2.2.1 ∧ ties ≤ x.2.2.2 := by
  cases remaining with
  | zero => simp [decodeWeeks]
  | succ r =>
      intro x hx
      simp only [decodeWeeks, List.head?_cons, Option.mem_def, Option.some.injEq] at hx
      subst hx
      exact tallySlice_ge _ wins losses ties

theorem decodeWeeks_chain (trimmed : List Char) (cpw remaining week wins losses ties : Nat) :
    List.Chain' cumulMono (decodeWeeks trimmed cpw remaining week wins losses ties) := by
  induction remaining generalizing week wins losses ties with
  | zero => simp [decodeWeeks]
  | succ r ih =>
      simp only [decodeWeeks]
      refine List.chain'_cons'.mpr ⟨?_, ih _ _ _ _⟩
      intro y hy
      have hge := decodeWeeks_head_ge trimmed cpw r (week + 1) _ _ _ y hy
      exact ⟨hge.1, hge.2.1, hge.2.2⟩

/-- C8: record-string decoding is idempotent (the same string decodes to
the same per-week tuples), cumulatively monotonic (each week's running
wins/losses/ties dominate the previous week's), and emits no week number
beyond `floor(cleaned length / chars_per_week)` — it never infers future
weeks. -/
theorem record_string_to_weeks_properties (chars_per_week : Nat) (s : String) :
    record_string_to_weeks chars_per_week (some s) =
        record_string_to_weeks chars_per_week (some s) ∧
      List.Chain' cumulMono (record_string_to_weeks chars_per_week (some s)) ∧
      ∀ e ∈ record_string_to_weeks chars_per_week (some s),
        e.1 ≤ (trimmedRecord s).length / chars_per_week := by
  refine ⟨rfl, ?_, ?_⟩
  · unfold record_string_to_weeks
    by_cases hs : s = ""
    · simp [hs]
    · by_cases ht : trimmedRecord s = []
      · simp [hs, ht]
      · simp only [if_neg hs, if_neg ht]
        exact decodeWeeks_chain _ _ _ _ _ _ _
  · intro e he
    unfold record_string_to_weeks at he
    by_cases hs : s = ""
    · simp [hs] at he
    · by_cases ht : trimmedRecord s = []
      · simp [hs, ht] at he
      · simp only [if_neg hs, if_neg ht] at he
        have hmem : e.1 ∈ (decodeWeeks (trimmedRecord s) chars_per_week
            ((trimmedRecord s).length / chars_per_week) 1 0 0 0).map Prod.fst :=
          List.mem_map.mpr ⟨e, he, rfl⟩
        rw [decodeWeeks_weeks] at hmem
        have := List.mem_range'_1.mp hmem
        omega

/-- C8 witness: the properties instantiated on the record `"WWL"` with
one character per week. -/
theorem record_string_to_weeks_properties_witness :
    record_string_to_weeks 1 (some "WWL") = record_string_to_weeks 1 (some "WWL") ∧
      List.Chain' cumulMono (record_string_to_weeks 1 (some "WWL")) ∧
      ∀ e ∈ record_string_to_weeks 1 (some "WWL"),
        e.1 ≤ (trimmedRecord "WWL").length / 1 :=
  record_string_to_weeks_properties 1 "WWL"

theorem decodeWeeks_take (trimmed : List Char) (cpw n remaining week wins losses ties : Nat)
    (hw : 1 ≤ week) (hn : (week + remaining - 1) * cpw ≤ n) :
    decodeWeeks trimmed cpw remaining week wins losses ties =
      decodeWeeks (trimmed.take n) cpw remaining week wins losses ties := by
  induction remaining generalizing week wins losses ties with
  | zero => rfl
  | succ r ih =>
      have hslice : ((trimmed.take n).drop ((week - 1) * cpw)).take cpw =
          (trimmed.drop ((week - 1) * cpw)).take cpw := by
        rw [List.drop_take]
        rw [List.take_take]
        congr 1
        have hweek : (week - 1) * cpw + cpw ≤ n := by
          have h1 : (week - 1) * cpw + cpw = week * cpw := by
            have : week - 1 + 1 = week := Nat.sub_add_cancel hw
            calc (week - 1) * cpw + cpw = ((week - 1) + 1) * cpw := by
                  rw [Nat.add_mul, Nat.one_mul]
              _ = week * cpw := by rw [this]
          have h2 : week * cpw ≤ (week + r) * cpw :=
            Nat.mul_le_mul_right cpw (by omega)
          have h3 : (week + (r + 1) - 1) = week + r := by omega
          rw [h3] at hn
          omega
        omega
      simp only [decodeWeeks, hslice]
      rw [ih (week + 1) _ _ _ (by omega) (by
        have : week + 1 + r - 1 = week + (r + 1) - 1 := by omega
        rw [this]
        exact hn)]

/-- C10: when the cleaned record string's length is not a multiple of
`chars_per_week`, the trailing `length mod chars_per_week` characters are
silently ignored: exactly `floor(length / chars_per_week)` weeks are
decoded, and the result is unchanged if the string is truncated to the
first `floor(length / chars_per_week) * chars_per_week` characters, so no
partial week is ever emitted. -/
theorem record_string_to_weeks_partial (chars_per_week : Nat) (s : String)
    (_hpos : 0 < chars_per_week)
    (hndvd : ¬ chars_per_week ∣ (trimmedRecord s).length) :
    (record_string_to_weeks chars_per_week (some s)).length =
        (trimmedRecord s).length / chars_per_week ∧
      record_string_to_weeks chars_per_week (some s) =
        decodeWeeks
          ((trimmedRecord s).take
            ((trimmedRecord s).length / chars_per_week * chars_per_week))
          chars_per_week ((trimmedRecord s).length / chars_per_week) 1 0 0 0 := by
  have ht : trimmedRecord s ≠ [] := by
    intro h
    exact hndvd (by simp [h])
  have hs : s ≠ "" := by
    intro h
    apply ht
    simp [trimmedRecord, pyStrip, h]
  constructor
  · unfold record_string_to_weeks
    simp only [if_neg hs, if_neg ht]
    exact decodeWeeks_length _ _ _ _ _ _ _
  · unfold record_string_to_weeks
    simp only [if_neg hs, if_neg ht]
    exact decodeWeeks_take _ _ _ _ _ _ _ _ le_rfl
      (by
        have harith : 1 + (trimmedRecord s).length / chars_per_week - 1 =
            (trimmedRecord s).length / chars_per_week :=
          Nat.add_sub_cancel_left 1 ((trimmedRecord s).length / chars_per_week)
        rw [harith])

/-- C10 witness: `"WLW"` with two characters per week cleans to length 3,
which is not a multiple of 2, so exactly one week is decoded and the
trailing character is ignored. -/
theorem record_string_to_weeks_partial_witness :
    (record_string_to_weeks 2 (some "WLW")).length = (trimmedRecord "WLW").length / 2 ∧
      record_string_to_weeks 2 (some "WLW") =
        decodeWeeks ((trimmedRecord "WLW").take ((trimmedRecord "WLW").length / 2 * 2))
          2 ((trimmedRecord "WLW").length / 2) 1 0 0 0 :=
  record_string_to_weeks_partial 2 "WLW" (by decide) (by decide)

/-- C9 counterexample: with the override set to `0` and a computed week
of `5`, the code yields `5` (a zero override is falsy and falls through)
while the claim's "equals the override when one is set" demands `0`. -/
theorem effective_week_zero_override_counterexample :
    effective_week_of (some 0) 5 = 5 ∧ spec_effective_week (some 0) 5 = 0 := by
  constructor <;> rfl

/-- C9 (amended): the effective week is a pure function of the override
and the computed week — it equals the override when one is set and
nonzero, otherwise the computed week when that is nonzero, otherwise 0. -/
theorem effective_week_of_spec (week_override : Option Int) (computed_week : Int) :
    (∀ v, week_override = some v → v ≠ 0 → effective_week_of week_override computed_week = v) ∧
      ((week_override = none ∨ week_override = some 0) → computed_week ≠ 0 →
        effective_week_of week_override computed_week = computed_week) ∧
      ((week_override = none ∨ week_override = some 0) → computed_week = 0 →
        effective_week_of week_override computed_week = 0) := by
  refine ⟨?_, ?_, ?_⟩
  · intro v hv hvne
    subst hv
    simp [effective_week_of, hvne]
  · rintro (ho | ho) hc <;> subst ho <;> simp [effective_week_of, hc]
  · rintro (ho | ho) hc <;> subst ho <;> simp [effective_week_of, hc]

/-- C9 witness: a nonzero override of 3 wins over a computed week of 7. -/
theorem effective_week_of_spec_witness : effective_week_of (some 3) 7 = 3 :=
  (effective_week_of_spec (some 3) 7).1 3 rfl (by decide)

theorem ciMatchHead_isSome (kw cs : List Char) :
    (ciMatchHead kw cs).isSome = kw.isPrefixOf (cs.map Char.toLower) := by
  induction kw generalizing cs with
  | nil => cases cs <;> simp [ciMatchHead, List.isPrefixOf]
  | cons k ks ih =>
      cases cs with
      | nil => simp [ciMatchHead, List.isPrefixOf]
      | cons c cs' =>
          by_cases h : c.toLower = k
          · simp [ciMatchHead, List.isPrefixOf, h, ih]
          · simp [ciMatchHead, List.isPrefixOf, h, Ne.symm h]

theorem _ensure_select_only_ok (query : String) :
    (_ensure_select_only query = Except.ok ()) ↔ spec_sql_accepts_amended query = true := by
  unfold _ensure_select_only spec_sql_accepts_amended
  by_cases h1 : (ciMatchHead "select".data
      ((pyStrip query.data).dropWhile (fun c => c == '('))).isNone
  · have h1' : ("select".data.isPrefixOf
        (((pyStrip query.data).dropWhile (fun c => c == '(')).map Char.toLower)) = false := by
      rw [← ciMatchHead_isSome, Option.isNone_iff_eq_none.mp h1]
      rfl
    simp [h1, h1']
  · have h1' : ("select".data.isPrefixOf
        (((pyStrip query.data).dropWhile (fun c => c == '(')).map Char.toLower)) = true := by
      rw [← ciMatchHead_isSome]
      rcases hm : ciMatchHead "select".data
          ((pyStrip query.data).dropWhile (fun c => c == '(')) with _ | rest
      · exact absurd (by simp [hm]) h1
      · simp
    by_cases h2 : _DISALLOWED.any
        (fun kw => containsWordCI kw false ((pyStrip query.data).dropWhile (fun c => c == '(')))
    · simp [h1, h1', h2]
    · simp [h1, h1', h2]

/-- C4 counterexample: the query `"(select 1"` is accepted by the code —
`_ensure_select_only` drops leading `(` characters before the `select`
check — although its trimmed, lowercased text does not start with
`select`, so the claimed acceptance condition is not an iff. -/
theorem run_sql_guard_paren_counterexample :
    run_sql_guard "(select 1" 200 = Except.ok "(select 1 LIMIT 200;" ∧
      spec_sql_accepts "(select 1" = false := by
  constructor <;> rfl

/-- C4 (amended): a query is accepted iff its trimmed text, after
dropping leading `(` characters, starts with `select` case-insensitively
and contains no whole-word disallowed keyword; rejection produces a
validation error before anything executes, an accepted query without a
whole-word `limit` gets ` LIMIT <cap>;` appended after dropping trailing
semicolons, and one already containing `limit` passes through unchanged. -/
theorem run_sql_guard_spec (query : String) (limit : Nat) :
    ((∃ out, run_sql_guard query limit = Except.ok out) ↔
        spec_sql_accepts_amended query = true) ∧
      (spec_sql_accepts_amended query = true →
        (containsWordCI "limit".data false query.data = true →
            run_sql_guard query limit = Except.ok query) ∧
          (containsWordCI "limit".data false query.data = false →
            run_sql_guard query limit =
              Except.ok (String.mk (rstripSemis query.data) ++
                " LIMIT " ++ toString limit ++ ";"))) := by
  constructor
  · constructor
    · rintro ⟨out, hout⟩
      rcases hsel : _ensure_select_only query with e | u
      · rw [run_sql_guard, hsel] at hout
        exact absurd hout (by simp)
      · exact (_ensure_select_only_ok query).mp (by rw [hsel])
    · intro hacc
      refine ⟨_ensure_limit query limit, ?_⟩
      rw [run_sql_guard, (_ensure_select_only_ok query).mpr hacc]
  · intro hacc
    constructor
    · intro hlim
      rw [run_sql_guard, (_ensure_select_only_ok query).mpr hacc, _ensure_limit, if_pos hlim]
    · intro hlim
      rw [run_sql_guard, (_ensure_select_only_ok query).mpr hacc, _ensure_limit,
        if_neg (by rw [hlim]; exact Bool.false_ne_true)]

/-- C4 witness: `"SELECT * FROM players"` is accepted and gains
` LIMIT 200;`, and `"select * from players limit 5"` is accepted and
keeps its own limit. -/
theorem run_sql_guard_spec_witness :
    run_sql_guard "SELECT * FROM players" 200 =
        Except.ok (String.mk (rstripSemis "SELECT * FROM players".data) ++
          " LIMIT " ++ toString 200 ++ ";") ∧
      run_sql_guard "select * from players limit 5" 200 =
        Except.ok "select * from players limit 5" ∧
      (run_sql_guard "DROP TABLE players" 200).isOk = false ∧
      (run_sql_guard "SELECT 1; DELETE FROM players" 200).isOk = false := by
  refine ⟨((run_sql_guard_spec "SELECT * FROM players" 200).2 (by decide)).2 (by decide),
    ((run_sql_guard_spec "select * from players limit 5" 200).2 (by decide)).1 (by decide),
    ?_, ?_⟩
  · rcases hrs : run_sql_guard "DROP TABLE players" 200 with e | out
    · rfl
    · exact absurd ((run_sql_guard_spec "DROP TABLE players" 200).1.mp ⟨out, hrs⟩)
        (by decide)
  · rcases hrs : run_sql_guard "SELECT 1; DELETE FROM players" 200 with e | out
    · rfl
    · exact absurd ((run_sql_guard_spec "SELECT 1; DELETE FROM players" 200).1.mp ⟨out, hrs⟩)
        (by decide)

theorem mem_insertSorted (a x : String) (l : List String) :
    a ∈ insertSorted x l ↔ a = x ∨ a ∈ l := by
  induction l with
  | nil => simp [insertSorted]
  | cons y ys ih =>
      by_cases h : strLt y x
      · simp only [insertSorted, if_pos h, List.mem_cons, ih]
        tauto
      · simp only [insertSorted, if_neg h, List.mem_cons]

theorem mem_sortStrings (a : String) (l : List String) :
    a ∈ sortStrings l ↔ a ∈ l := by
  induction l with
  | nil => simp [sortStrings]
  | cons x xs ih => simp [sortStrings, mem_insertSorted, ih]

theorem mem_filterIds (p : String) (l : List String) :
    p ∈ filterIds l ↔ p ∈ l ∧ p ≠ "" := by
  simp [filterIds]

theorem resolve_role_clauses (raw : RawRoster) (pid : String) (hp : pid ≠ "") :
    (pid ∈ raw.starters →
        _resolve_role (filterIds raw.starters) (filterIds raw.taxi)
          (filterIds raw.reserve) (filterIds raw.ir) pid = "starter") ∧
      (pid ∉ raw.starters → pid ∈ raw.taxi →
        _resolve_role (filterIds raw.starters) (filterIds raw.taxi)
          (filterIds raw.reserve) (filterIds raw.ir) pid = "taxi") ∧
      (pid ∉ raw.starters → pid ∉ raw.taxi → pid ∈ raw.reserve →
        _resolve_role (filterIds raw.starters) (filterIds raw.taxi)
          (filterIds raw.reserve) (filterIds raw.ir) pid = "reserve") ∧
      (pid ∉ raw.starters → pid ∉ raw.taxi → pid ∉ raw.reserve → pid ∈ raw.ir →
        _resolve_role (filterIds raw.starters) (filterIds raw.taxi)
          (filterIds raw.reserve) (filterIds raw.ir) pid = "ir") ∧
      (pid ∉ raw.starters → pid ∉ raw.taxi → pid ∉ raw.reserve → pid ∉ raw.ir →
        _resolve_role (filterIds raw.starters) (filterIds raw.taxi)
          (filterIds raw.reserve) (filterIds raw.ir) pid = "bench") := by
  refine ⟨?_, ?_, ?_, ?_, ?_⟩
  · intro h
    simp [_resolve_role, (mem_filterIds pid raw.starters).mpr ⟨h, hp⟩]
  · intro hns h
    have h1 : pid ∉ filterIds raw.starters :=
      fun hmem => hns ((mem_filterIds _ _).mp hmem).1
    simp [_resolve_role, h1, (mem_filterIds pid raw.taxi).mpr ⟨h, hp⟩]
  · intro hns hnt h
    have h1 : pid ∉ filterIds raw.starters :=
      fun hmem => hns ((mem_filterIds _ _).mp hmem).1
    have h2 : pid ∉ filterIds raw.taxi :=
      fun hmem => hnt ((mem_filterIds _ _).mp hmem).1
    simp [_resolve_role, h1, h2, (mem_filterIds pid raw.reserve).mpr ⟨h, hp⟩]
  · intro hns hnt hnr h
    have h1 : pid ∉ filterIds raw.starters :=
      fun hmem => hns ((mem_filterIds _ _).mp hmem).1
    have h2 : pid ∉ filterIds raw.taxi :=
      fun hmem => hnt ((mem_filterIds _ _).mp hmem).1
    have h3 : pid ∉ filterIds raw.reserve :=
      fun hmem => hnr ((mem_filterIds _ _).mp hmem).1
    simp [_resolve_role, h1, h2, h3, (mem_filterIds pid raw.ir).mpr ⟨h, hp⟩]
  · intro hns hnt hnr hni
    have h1 : pid ∉ filterIds raw.starters :=
      fun hmem => hns ((mem_filterIds _ _).mp hmem).1
    have h2 : pid ∉ filterIds raw.taxi :=
      fun hmem => hnt ((mem_filterIds _ _).mp hmem).1
    have h3 : pid ∉ filterIds raw.reserve :=
      fun hmem => hnr ((mem_filterIds _ _).mp hmem).1
    have h4 : pid ∉ filterIds raw.ir :=
      fun hmem => hni ((mem_filterIds _ _).mp hmem).1
    simp [_resolve_role, h1, h2, h3, h4]

theorem mem_roster_player_rows (league_id : String) (raw : RawRoster)
    (row : RosterPlayer) :
    row ∈ _roster_player_rows league_id raw ↔
      ∃ pid,
        (pid ∈ filterIds raw.players ∨
          ((pid ∈ raw.starters ∨ pid ∈ raw.taxi ∨ pid ∈ raw.reserve ∨ pid ∈ raw.ir) ∧
            pid ≠ "" ∧ pid ∉ filterIds raw.players)) ∧
        row = ⟨league_id, raw.roster_id, pid,
          _resolve_role (filterIds raw.starters) (filterIds raw.taxi)
            (filterIds raw.reserve) (filterIds raw.ir) pid⟩ := by
  simp only [_roster_player_rows, List.mem_append, List.mem_map, mem_sortStrings,
    List.mem_dedup, List.mem_filter, mem_filterIds, decide_eq_true_eq]
  constructor
  · rintro (⟨pid, hpid, hrow⟩ | ⟨pid, hpid, hrow⟩) <;>
      exact ⟨pid, by tauto, hrow.symm⟩
  · rintro ⟨pid, hcase, hrow⟩
    by_cases hpl : pid ∈ raw.players ∧ pid ≠ ""
    · exact Or.inl ⟨pid, hpl, hrow.symm⟩
    · exact Or.inr ⟨pid, by tauto, hrow.symm⟩

/-- C3: every emitted roster-player row gets its role by the priority
order starter > taxi > reserve > ir > bench relative to its own raw
roster — a starter is never classified otherwise, and a player in
several status lists gets the first matching role — and every non-empty
player id appearing in the player list or any status list is emitted as
a row, even when absent from the player list. -/
theorem normalize_roster_players_spec (raw_rosters : List RawRoster)
    (league_id : String) :
    (∀ row ∈ normalize_roster_players raw_rosters league_id, ∃ raw ∈ raw_rosters,
        row.roster_id = raw.roster_id ∧ row.player_id ≠ "" ∧
        (row.player_id ∈ raw.starters → row.role = "starter") ∧
        (row.player_id ∉ raw.starters → row.player_id ∈ raw.taxi → row.role = "taxi") ∧
        (row.player_id ∉ raw.starters → row.player_id ∉ raw.taxi →
          row.player_id ∈ raw.reserve → row.role = "reserve") ∧
        (row.player_id ∉ raw.starters → row.player_id ∉ raw.taxi →
          row.player_id ∉ raw.reserve → row.player_id ∈ raw.ir → row.role = "ir") ∧
        (row.player_id ∉ raw.starters → row.player_id ∉ raw.taxi →
          row.player_id ∉ raw.reserve → row.player_id ∉ raw.ir → row.role = "bench")) ∧
      (∀ raw ∈ raw_rosters, ∀ p : String, p ≠ "" →
        (p ∈ raw.players ∨ p ∈ raw.starters ∨ p ∈ raw.taxi ∨ p ∈ raw.reserve ∨ p ∈ raw.ir) →
        ∃ row ∈ normalize_roster_players raw_rosters league_id,
          row.roster_id = raw.roster_id ∧ row.player_id = p) := by
  constructor
  · intro row hrow
    obtain ⟨raw, hraw, hmem⟩ := List.mem_flatMap.mp hrow
    obtain ⟨pid, hsrc, hrow_eq⟩ := (mem_roster_player_rows league_id raw row).mp hmem
    have hpne : pid ≠ "" := by
      rcases hsrc with h | h
      · exact ((mem_filterIds _ _).mp h).2
      · exact h.2.1
    subst hrow_eq
    exact ⟨raw, hraw, rfl, hpne, resolve_role_clauses raw pid hpne⟩
  · intro raw hraw p hp hsrc
    by_cases hpl : p ∈ raw.players
    · refine ⟨⟨league_id, raw.roster_id, p,
        _resolve_role (filterIds raw.starters) (filterIds raw.taxi)
          (filterIds raw.reserve) (filterIds raw.ir) p⟩, ?_, rfl, rfl⟩
      exact List.mem_flatMap.mpr ⟨raw, hraw, (mem_roster_player_rows _ _ _).mpr
        ⟨p, Or.inl ((mem_filterIds _ _).mpr ⟨hpl, hp⟩), rfl⟩⟩
    · have hsrc' : p ∈ raw.starters ∨ p ∈ raw.taxi ∨ p ∈ raw.reserve ∨ p ∈ raw.ir := by
        tauto
      refine ⟨⟨league_id, raw.roster_id, p,
        _resolve_role (filterIds raw.starters) (filterIds raw.taxi)
          (filterIds raw.reserve) (filterIds raw.ir) p⟩, ?_, rfl, rfl⟩
      exact List.mem_flatMap.mpr ⟨raw, hraw, (mem_roster_player_rows _ _ _).mpr
        ⟨p, Or.inr ⟨hsrc', hp, fun hm => hpl ((mem_filterIds _ _).mp hm).1⟩, rfl⟩⟩

/-- C3 witness: on `sampleRoster`, player `"9"` appears only in the ir
list and is still emitted as a row of roster 7. -/
theorem normalize_roster_players_spec_witness :
    ∃ row ∈ normalize_roster_players [sampleRoster] "L1",
      row.roster_id = 7 ∧ row.player_id = "9" :=
  (normalize_roster_players_spec [sampleRoster] "L1").2 sampleRoster (by simp)
    "9" (by decide) (Or.inr (Or.inr (Or.inr (Or.inr (by decide)))))

theorem mem_insertMatch (a x : TeamProfile) (l : List TeamProfile) :
    a ∈ insertMatch x l ↔ a = x ∨ a ∈ l := by
  induction l with
  | nil => simp [insertMatch]
  | cons y ys ih =>
      by_cases h : profileKeyLt y x
      · simp only [insertMatch, if_pos h, List.mem_cons, ih]
        tauto
      · simp only [insertMatch, if_neg h, List.mem_cons]

theorem mem_sortMatches (a : TeamProfile) (l : List TeamProfile) :
    a ∈ sortMatches l ↔ a ∈ l := by
  induction l with
  | nil => simp [sortMatches]
  | cons x xs ih => simp [sortMatches, mem_insertMatch, ih]

theorem length_insertMatch (x : TeamProfile) (l : List TeamProfile) :
    (insertMatch x l).length = l.length + 1 := by
  induction l with
  | nil => rfl
  | cons y ys ih =>
      by_cases h : profileKeyLt y x <;>
        simp [insertMatch, h, ih]

theorem length_sortMatches (l : List TeamProfile) :
    (sortMatches l).length = l.length := by
  induction l with
  | nil => rfl
  | cons x xs ih => simp [sortMatches, length_insertMatch, ih]

/-- C5: `resolve_roster_id` has exactly three outcomes — an `ambiguous`
result always carries at least two candidates, each a genuine
case-insensitive name match, so a multiple match is never silently
collapsed; a numeric key resolves directly against `rosters` by id,
found or not, regardless of name matches; and for a non-numeric key the
unique/none/many cardinality of the name matches decides the outcome. -/
theorem resolve_roster_id_outcomes (db : ResolverDB) (league_id : String)
    (roster_key : Option String) :
    (∀ ms, resolve_roster_id db league_id roster_key = ResolveResult.ambiguous ms →
        2 ≤ ms.length ∧ ∀ x ∈ ms, ∃ p ∈ db.team_profiles,
          p.league_id = league_id ∧
          nameMatches (normalize_lookup_key roster_key) p = true ∧
          x = (p.roster_id, p.team_name)) ∧
      (pyIsDigit (normalize_lookup_key roster_key) = true →
        (∀ r, roster_by_id db league_id
            ((digitsToNat (normalize_lookup_key roster_key).data : Int)) = some r →
          ∃ tn, resolve_roster_id db league_id roster_key =
            ResolveResult.found
              ((digitsToNat (normalize_lookup_key roster_key).data : Int)) tn) ∧
        (roster_by_id db league_id
            ((digitsToNat (normalize_lookup_key roster_key).data : Int)) = none →
          resolve_roster_id db league_id roster_key = ResolveResult.notFound)) ∧
      (normalize_lookup_key roster_key ≠ "" →
        pyIsDigit (normalize_lookup_key roster_key) = false →
        ((roster_name_matches db league_id (normalize_lookup_key roster_key) = [] →
            resolve_roster_id db league_id roster_key = ResolveResult.notFound) ∧
          (∀ m, sortMatches (roster_name_matches db league_id
              (normalize_lookup_key roster_key)) = [m] →
            resolve_roster_id db league_id roster_key =
              ResolveResult.found m.roster_id m.team_name) ∧
          (2 ≤ (roster_name_matches db league_id (normalize_lookup_key roster_key)).length →
            resolve_roster_id db league_id roster_key =
              ResolveResult.ambiguous
                ((sortMatches (roster_name_matches db league_id
                  (normalize_lookup_key roster_key))).map
                    (fun m => (m.roster_id, m.team_name)))))) := by
  refine ⟨?_, ?_, ?_⟩
  · intro ms hms
    by_cases hk : normalize_lookup_key roster_key = ""
    · simp [resolve_roster_id, hk] at hms
    · by_cases hd : pyIsDigit (normalize_lookup_key roster_key)
      · rcases hr : roster_by_id db league_id
            ((digitsToNat (normalize_lookup_key roster_key).data : Int)) with _ | r <;>
          simp [resolve_roster_id, hk, hd, hr] at hms
      · have hd' : pyIsDigit (normalize_lookup_key roster_key) = false := by
          simpa using hd
        rcases hsort : sortMatches (roster_name_matches db league_id
            (normalize_lookup_key roster_key)) with _ | ⟨m1, tail⟩
        · simp [resolve_roster_id, hk, hd', hsort] at hms
        · rcases tail with _ | ⟨m2, rest⟩
          · simp [resolve_roster_id, hk, hd', hsort] at hms
          · have hres : resolve_roster_id db league_id roster_key =
                ResolveResult.ambiguous
                  ((m1 :: m2 :: rest).map (fun m => (m.roster_id, m.team_name))) := by
              simp [resolve_roster_id, hk, hd', hsort]
            rw [hres] at hms
            injection hms with hlist
            subst hlist
            constructor
            · simp only [List.length_map, List.length_cons]
              omega
            · intro x hx
              obtain ⟨p, hp, hxp⟩ := List.mem_map.mp hx
              have hp' : p ∈ roster_name_matches db league_id
                  (normalize_lookup_key roster_key) := by
                rw [← mem_sortMatches, hsort]
                exact hp
              obtain ⟨hmem, hcond⟩ := List.mem_filter.mp hp'
              simp only [Bool.and_eq_true, decide_eq_true_eq] at hcond
              exact ⟨p, hmem, hcond.1, hcond.2, hxp.symm⟩
  · intro hd
    have hk : normalize_lookup_key roster_key ≠ "" := by
      intro h
      rw [h] at hd
      exact absurd hd (by decide)
    constructor
    · intro r hr
      refine ⟨(match profile_by_id db league_id
          ((digitsToNat (normalize_lookup_key roster_key).data : Int)) with
          | some p => p.team_name
          | none => none), ?_⟩
      simp [resolve_roster_id, hk, hd, hr]
    · intro hr
      simp [resolve_roster_id, hk, hd, hr]
  · intro hk hd
    refine ⟨?_, ?_, ?_⟩
    · intro hempty
      have hsort : sortMatches (roster_name_matches db league_id
          (normalize_lookup_key roster_key)) = [] := by
        rw [hempty]
        rfl
      simp [resolve_roster_id, hk, hd, hsort]
    · intro m hsort
      simp [resolve_roster_id, hk, hd, hsort]
    · intro hlen
      rcases hsort : sortMatches (roster_name_matches db league_id
          (normalize_lookup_key roster_key)) with _ | ⟨m1, tail⟩
      · rw [← length_sortMatches, hsort] at hlen
        simp at hlen
      · rcases tail with _ | ⟨m2, rest⟩
        · rw [← length_sortMatches, hsort] at hlen
          simp at hlen
        · simp [resolve_roster_id, hk, hd, hsort]

/-- C5 witness: with team names `"Alpha"` and `"alpha"`, key `"ALPHA"`
resolves to `found=False` with both candidates, while numeric key `"1"`
resolves directly to roster 1. -/
theorem resolve_roster_id_outcomes_witness :
    resolve_roster_id alphaDB "L1" (some "ALPHA") =
        ResolveResult.ambiguous [(1, some "Alpha"), (2, some "alpha")] ∧
      resolve_roster_id alphaDB "L1" (some "1") =
        ResolveResult.found 1 (some "Alpha") := by
  constructor
  · have h := ((resolve_roster_id_outcomes alphaDB "L1" (some "ALPHA")).2.2
      (by decide) (by decide)).2.2 (by decide)
    rw [h]
    decide
  · obtain ⟨tn, htn⟩ := ((resolve_roster_id_outcomes alphaDB "L1" (some "1")).2.1
      (by decide)).1 ⟨"L1", 1, none, none, none⟩ (by decide)
    rw [htn]
    have : tn = some "Alpha" := by
      have h2 := htn
      rw [show resolve_roster_id alphaDB "L1" (some "1") =
        ResolveResult.found 1 (some "Alpha") from by decide] at h2
      have := (ResolveResult.found.injEq .. ▸ h2)
      exact this.2.symm
    rw [this]
    decide

theorem pickIdentityEq_refl (p : DraftPick) : pickIdentityEq p p :=
  ⟨rfl, rfl, rfl, rfl, rfl, rfl⟩

theorem pickIdentityEq_trans {p q r : DraftPick} (h1 : pickIdentityEq p q)
    (h2 : pickIdentityEq q r) : pickIdentityEq p r :=
  ⟨h1.1.trans h2.1, h1.2.1.trans h2.2.1, h1.2.2.1.trans h2.2.2.1,
    h1.2.2.2.1.trans h2.2.2.2.1, h1.2.2.2.2.1.trans h2.2.2.2.2.1,
    h1.2.2.2.2.2.trans h2.2.2.2.2.2⟩

theorem forall₂_pickIdentityEq_refl (l : List DraftPick) :
    List.Forall₂ pickIdentityEq l l :=
  List.forall₂_same.mpr (fun p _ => pickIdentityEq_refl p)

theorem forall₂_pickIdentityEq_trans {l1 l2 l3 : List DraftPick}
    (h1 : List.Forall₂ pickIdentityEq l1 l2)
    (h2 : List.Forall₂ pickIdentityEq l2 l3) :
    List.Forall₂ pickIdentityEq l1 l3 := by
  induction h1 generalizing l3 with
  | nil =>
      cases h2
      exact List.Forall₂.nil
  | cons h t ih =>
      cases h2 with
      | cons h' t' => exact List.Forall₂.cons (pickIdentityEq_trans h h') (ih t')

theorem apply_one_traded_pick_identity (picks : List DraftPick) (lid : String)
    (r : RawTradedPick) :
    List.Forall₂ pickIdentityEq picks (apply_one_traded_pick picks lid r) := by
  rcases hs : r.season with _ | sv
  · simp only [apply_one_traded_pick, hs]
    exact forall₂_pickIdentityEq_refl picks
  · rcases hrd : r.round with _ | rv
    · simp only [apply_one_traded_pick, hs, hrd]
      exact forall₂_pickIdentityEq_refl picks
    · rcases hor : r.roster_id with _ | orig
      · simp only [apply_one_traded_pick, hs, hrd, hor]
        exact forall₂_pickIdentityEq_refl picks
      · rcases how : r.owner_id with _ | owner
        · simp only [apply_one_traded_pick, hs, hrd, hor, how]
          exact forall₂_pickIdentityEq_refl picks
        · simp only [apply_one_traded_pick, hs, hrd, hor, how]
          rw [List.forall₂_map_right_iff]
          apply List.forall₂_same.mpr
          intro p _
          by_cases hcond : p.league_id = lid ∧ p.season = sv ∧ p.round = rv ∧
              p.original_roster_id = orig
          · simp only [if_pos hcond]
            exact ⟨rfl, rfl, rfl, rfl, rfl, rfl⟩
          · simp only [if_neg hcond]
            exact pickIdentityEq_refl p

theorem apply_fold_identity (raws : List RawTradedPick) (picks : List DraftPick)
    (lid : String) :
    List.Forall₂ pickIdentityEq picks
      (raws.foldl (fun acc pick => apply_one_traded_pick acc lid pick) picks) := by
  induction raws generalizing picks with
  | nil => exact forall₂_pickIdentityEq_refl picks
  | cons r rs ih =>
      simp only [List.foldl_cons]
      exact forall₂_pickIdentityEq_trans (apply_one_traded_pick_identity picks lid r)
        (ih (apply_one_traded_pick picks lid r))

theorem length_flatMap_const {α β : Type} (l : List α) (g : α → List β) (n : Nat)
    (h : ∀ a ∈ l, (g a).length = n) : (l.flatMap g).length = l.length * n := by
  induction l with
  | nil => simp
  | cons a as ih =>
      simp only [List.flatMap_cons, List.length_append, List.length_cons]
      rw [h a (by simp), ih (fun x hx => h x (by simp [hx]))]
      ring

/-- C7: seeding produces `3 * rounds * rosters` picks, each owned by its
original roster (and none at all when rounds are non-positive or no
rosters exist), and trade application never touches a pick's identity
columns: applying one traded-pick record rewrites `current_roster_id`
on exactly the rows matching its `(season, round, original_roster_id)`
key and leaves every other row byte-for-byte unchanged. -/
theorem seed_and_trade_spec (rosters : List Roster) (league_id base_season : String)
    (draft_rounds : Int) (picks : List DraftPick) (r : RawTradedPick) :
    ((∃ base_year, parseIntStr? base_season = some base_year) → 0 < draft_rounds →
        rosters ≠ [] →
        (seed_draft_picks rosters league_id base_season draft_rounds).length =
          3 * draft_rounds.toNat * rosters.length) ∧
      (∀ p ∈ seed_draft_picks rosters league_id base_season draft_rounds,
        p.original_roster_id = p.current_roster_id) ∧
      (draft_rounds ≤ 0 ∨ rosters = [] →
        seed_draft_picks rosters league_id base_season draft_rounds = []) ∧
      (∀ raws, List.Forall₂ pickIdentityEq picks (apply_traded_picks picks raws league_id)) ∧
      (∀ sv rv orig owner, r.season = some sv → r.round = some rv →
        r.roster_id = some orig → r.owner_id = some owner →
        apply_traded_picks picks (some [r]) league_id = picks.map (fun p =>
          if p.league_id = league_id ∧ p.season = sv ∧ p.round = rv ∧
              p.original_roster_id = orig then
            { p with current_roster_id := owner }
          else p)) := by
  refine ⟨?_, ?_, ?_, ?_, ?_⟩
  · rintro ⟨base_year, hparse⟩ hpos hne
    have hcond : ¬(draft_rounds ≤ 0 ∨ rosters = []) := by
      push_neg
      exact ⟨by omega, hne⟩
    simp only [seed_draft_picks, hparse, if_neg hcond]
    rw [length_flatMap_const _ _ (rosters.length * draft_rounds.toNat) ?inner]
    · simp only [List.length_range']
      ring
    · intro offset _
      rw [length_flatMap_const _ _ draft_rounds.toNat ?rounds]
      · intro roster _
        rw [List.length_map, List.length_range']
  · intro p hp
    rcases hparse : parseIntStr? base_season with _ | base_year
    · simp [seed_draft_picks, hparse] at hp
    · by_cases hcond : draft_rounds ≤ 0 ∨ rosters = []
      · simp [seed_draft_picks, hparse, hcond] at hp
      · simp only [seed_draft_picks, hparse, if_neg hcond, List.mem_flatMap,
          List.mem_map] at hp
        obtain ⟨offset, _, roster, _, round_value, _, hpeq⟩ := hp
        rw [← hpeq]
  · intro hcond
    rcases hparse : parseIntStr? base_season with _ | base_year <;>
      simp [seed_draft_picks, hparse, hcond]
  · intro raws
    cases raws with
    | none => exact forall₂_pickIdentityEq_refl picks
    | some l => exact apply_fold_identity l picks league_id
  · intro sv rv orig owner hs hrd hor how
    simp [apply_traded_picks, apply_one_traded_pick, hs, hrd, hor, how]

/-- C7 witness: one roster and two rounds seed `3 * 2 * 1` picks, and
applying `sampleTrade` to an arbitrary concrete one-pick table rewrites
exactly the matching row's ownership. -/
theorem seed_and_trade_spec_witness :
    (seed_draft_picks oneRosterList "L1" "2024" 2).length =
        3 * (2 : Int).toNat * oneRosterList.length ∧
      apply_traded_picks [⟨"L1", "2025", 1, 1, 1, none, "seed"⟩] (some [sampleTrade]) "L1" =
        [⟨"L1", "2025", 1, 1, 1, none, "seed"⟩].map (fun p =>
          if p.league_id = "L1" ∧ p.season = "2025" ∧ p.round = 1 ∧
              p.original_roster_id = 1 then
            { p with current_roster_id := 9 }
          else p) :=
  ⟨(seed_and_trade_spec oneRosterList "L1" "2024" 2 [] sampleTrade).1
      ⟨2024, by decide⟩ (by decide) (by simp [oneRosterList]),
    (seed_and_trade_spec oneRosterList "L1" "2024" 2
        [⟨"L1", "2025", 1, 1, 1, none, "seed"⟩] sampleTrade).2.2.2.2
      "2025" 1 1 9 rfl rfl rfl rfl⟩

theorem le_foldl_max (l : List Int) (acc : Int) : acc ≤ l.foldl max acc := by
  induction l generalizing acc with
  | nil => exact le_refl acc
  | cons y ys ih =>
      simp only [List.foldl_cons]
      exact le_trans (le_max_left acc y) (ih (max acc y))

theorem mem_le_foldl_max (l : List Int) (acc x : Int) (h : x ∈ l) :
    x ≤ l.foldl max acc := by
  induction l generalizing acc with
  | nil => simp at h
  | cons y ys ih =>
      simp only [List.foldl_cons]
      rcases List.mem_cons.mp h with rfl | hx
      · exact le_trans (le_max_right acc x) (le_foldl_max ys (max acc x))
      · exact ih (max acc y) hx

theorem mem_le_max_int (l : List Int) (x : Int) (h : x ∈ l) : x ≤ _max_int l := by
  cases l with
  | nil => simp at h
  | cons y ys =>
      rcases List.mem_cons.mp h with rfl | hx
      · exact le_foldl_max ys x
      · exact mem_le_foldl_max ys y x hx

theorem should_insert_current_spec (weeks : List Int) (ew : Int) (pws : Option Int)
    (h : should_insert_current weeks ew pws = true) :
    weeks = [] ∨
      ((∀ w ∈ weeks, w < ew) ∧ (pws = none ∨ ∃ p, pws = some p ∧ ew < p)) := by
  unfold should_insert_current at h
  by_cases hw : weeks = []
  · exact Or.inl hw
  · right
    rw [if_neg hw] at h
    by_cases hmax : ew > _max_int weeks
    · rw [if_pos hmax] at h
      constructor
      · intro w hwmem
        have := mem_le_max_int weeks w hwmem
        omega
      · cases pws with
        | none => exact Or.inl rfl
        | some p =>
            simp only [decide_eq_true_eq] at h
            exact Or.inr ⟨p, rfl, h⟩
    · rw [if_neg hmax] at h
      exact absurd h (by simp)

theorem should_insert_current_playoff_false (weeks : List Int) (ew p : Int)
    (hw : weeks ≠ []) (hp : p ≤ ew) :
    should_insert_current weeks ew (some p) = false := by
  unfold should_insert_current
  rw [if_neg hw]
  by_cases hmax : ew > _max_int weeks
  · rw [if_pos hmax]
    simp only [decide_eq_false_iff_not]
    omega
  · rw [if_neg hmax]

theorem week_of_mem_normalize_standings (raw_rosters : List RawRosterInfo)
    (league_id season : String) (week : Int) (row : StandingsWeek)
    (h : row ∈ normalize_standings raw_rosters league_id season week) :
    row.week = week := by
  obtain ⟨rr, _, hrow⟩ := List.mem_map.mp h
  rw [← hrow]

/-- C2 (amended): decoded-record standings rows are inserted verbatim
and a live snapshot never collides with a decoded week — when both are
present every decoded week lies strictly before the snapshot week; the
snapshot for `effective_week` is inserted only when no decoded weeks
exist, or when `effective_week` exceeds every decoded week and
`playoff_week_start` is unset or still ahead; and when decoded weeks
exist, a snapshot week at or past `playoff_week_start` never receives a
live snapshot row — but with no decoded weeks at all the snapshot is
inserted even in the playoffs. -/
theorem standings_phase_policy (league_id season : String) (chars_per_week : Nat)
    (pws : Option Int) (ew : Int) (raw_rosters : List RawRosterInfo) :
    (∃ snap, standings_phase league_id season chars_per_week pws ew raw_rosters =
        record_standings_of league_id season chars_per_week pws raw_rosters ++ snap ∧
        ∀ row ∈ snap, row.week = ew) ∧
      (∀ row ∈ standings_phase league_id season chars_per_week pws ew raw_rosters,
        row ∉ record_standings_of league_id season chars_per_week pws raw_rosters →
        ∀ d ∈ record_standings_of league_id season chars_per_week pws raw_rosters,
          d.week ≠ row.week) ∧
      (∀ row ∈ standings_phase league_id season chars_per_week pws ew raw_rosters,
        row ∉ record_standings_of league_id season chars_per_week pws raw_rosters →
        record_standings_of league_id season chars_per_week pws raw_rosters = [] ∨
          ((∀ d ∈ record_standings_of league_id season chars_per_week pws raw_rosters,
              d.week < ew) ∧
            (pws = none ∨ ∃ p, pws = some p ∧ ew < p))) ∧
      (record_standings_of league_id season chars_per_week pws raw_rosters ≠ [] →
        ∀ p, pws = some p → p ≤ ew →
        standings_phase league_id season chars_per_week pws ew raw_rosters =
          record_standings_of league_id season chars_per_week pws raw_rosters) := by
  by_cases hins : should_insert_current
      ((record_standings_of league_id season chars_per_week pws raw_rosters).map
        (fun row => row.week)) ew pws = true
  · have hphase : standings_phase league_id season chars_per_week pws ew raw_rosters =
        record_standings_of league_id season chars_per_week pws raw_rosters ++
          normalize_standings raw_rosters league_id season ew := by
      simp only [standings_phase, if_pos hins]
    have hspec := should_insert_current_spec _ ew pws hins
    refine ⟨⟨normalize_standings raw_rosters league_id season ew, hphase,
      fun row hrow => week_of_mem_normalize_standings _ _ _ _ _ hrow⟩, ?_, ?_, ?_⟩
    · intro row hrow hnot d hd
      have hsnap : row ∈ normalize_standings raw_rosters league_id season ew := by
        rw [hphase] at hrow
        rcases List.mem_append.mp hrow with h | h
        · exact absurd h hnot
        · exact h
      have hweek : row.week = ew := week_of_mem_normalize_standings _ _ _ _ _ hsnap
      rcases hspec with hempty | ⟨hlt, _⟩
      · rw [List.map_eq_nil_iff] at hempty
        rw [hempty] at hd
        simp at hd
      · have := hlt d.week (List.mem_map.mpr ⟨d, hd, rfl⟩)
        omega
    · intro row hrow hnot
      rcases hspec with hempty | ⟨hlt, hpw⟩
      · rw [List.map_eq_nil_iff] at hempty
        exact Or.inl hempty
      · refine Or.inr ⟨?_, hpw⟩
        intro d hd
        exact hlt d.week (List.mem_map.mpr ⟨d, hd, rfl⟩)
    · intro hne p hpws hple
      subst hpws
      have hfalse := should_insert_current_playoff_false
        ((record_standings_of league_id season chars_per_week (some p) raw_rosters).map
          (fun row => row.week)) ew p
        (by simpa [List.map_eq_nil_iff] using hne) hple
      rw [hins] at hfalse
      exact absurd hfalse (by simp)
  · have hphase : standings_phase league_id season chars_per_week pws ew raw_rosters =
        record_standings_of league_id season chars_per_week pws raw_rosters := by
      simp only [standings_phase, if_neg hins]
    refine ⟨⟨[], by rw [hphase, List.append_nil], by simp⟩, ?_, ?_, ?_⟩
    · intro row hrow hnot
      rw [hphase] at hrow
      exact absurd hrow hnot
    · intro row hrow hnot
      rw [hphase] at hrow
      exact absurd hrow hnot
    · intro _ p hpws hple
      exact hphase

/-- C2 counterexample: with no record strings at all, a playoff-week
snapshot is still inserted — playoff start 15, effective week 16 — so
"a snapshot week that lands in the playoffs never receives a live
snapshot row" fails on the code. -/
theorem standings_playoff_snapshot_counterexample :
    (standings_phase "L1" "2024" 1 (some 15) 16 [cexRosterInfo]).map
        (fun row => row.week) = [16] ∧
      record_standings_of "L1" "2024" 1 (some 15) [cexRosterInfo] = [] := by
  constructor <;> rfl

/-- C2 witness: a roster whose record decodes weeks 1–3 with playoff
start 2 keeps only week 1; with effective week 5 (at or past playoff
start), no live snapshot is added. -/
theorem standings_phase_policy_witness :
    standings_phase "L1" "2024" 1 (some 2) 5 [sampleStandingsRoster] =
      record_standings_of "L1" "2024" 1 (some 2) [sampleStandingsRoster] :=
  (standings_phase_policy "L1" "2024" 1 (some 2) 5 [sampleStandingsRoster]).2.2.2
    (by decide) 2 rfl (by decide)

end SleeperData
